import Mathlib

/- Verification of the ToaruOS legacy ATA disk driver (mod ata_legacy, C source
   in the repository). The definitions below are a shallow embedding of the C
   functions: the byte-range planner of read_ata and write_ata, the capacity
   computation ata_max_offset, the node attributes set by ata_device_create,
   the drive-signature classification of ata_device_detect, the port-access
   traces of the sector transport (ata_device_read_sector,
   ata_device_write_sector, ata_device_init, ata_device_detect), and the
   word compare buffer_compare used by the write-verify retry.

   Machine integers are modelled as Nat with explicit reduction modulo 2^32
   where the C code computes in uint32_t / unsigned int.  The koff_t byte
   offset argument of read_ata / write_ata is truncated to uint32_t by the
   C code (uint32_t offset = _offset), which the model reproduces. -/

/- ATA_SECTOR_SIZE in the source is 512; the literal 512 is used throughout. -/

/-- Modulus of the C types uint32_t and unsigned int. -/
def U32 : Nat := 4294967296

/-- The two capacity fields of ata_identify_t consumed by the driver
(words 100..103 and 60..61 of the IDENTIFY block). -/
structure AtaIdentity where
  sectors_48 : Nat
  sectors_28 : Nat
deriving Repr, DecidableEq

/-- ata_max_offset: sectors_48 if nonzero, else sectors_28, times 512. -/
def ata_max_offset (id : AtaIdentity) : Nat :=
  (if id.sectors_48 = 0 then id.sectors_28 else id.sectors_48) * 512

/-- One sector operation issued by the byte-range planner.  sector is the LBA
passed to ata_device_read_sector / ata_device_write_sector_retry; the bytes
[sectorOff, sectorOff + len) of that sector are transferred to/from bytes
[bufOff, bufOff + len) of the caller's buffer.  A whole-sector transfer has
sectorOff = 0 and len = 512; the prefix and postfix read-modify-write paths
move only the len bytes shown (the rest of the sector is read back and, for
write, rewritten unchanged). -/
structure SectorOp where
  sector : Nat
  sectorOff : Nat
  bufOff : Nat
  len : Nat
deriving Repr, DecidableEq

/-- The whole-sector loop of read_ata / write_ata: sectors s1 .. e1 are
transferred whole, the buffer cursor x advancing by 512 per sector. -/
def wholeOps (s1 x e1 : Nat) : List SectorOp :=
  (List.range (e1 + 1 - s1)).map (fun i => ⟨s1 + i, 0, x + 512 * i, 512⟩)

/-- The prefix / postfix / whole-sector operations emitted by read_ata and
write_ata after the bounds checks, in source order.  offset and size are the
uint32 values in scope after the clamp; end_block is passed in separately
because the source computes it from the UNCLAMPED size (lines 57-58 precede
the clamp at lines 66-69).  All intermediate arithmetic is unsigned-int
(32-bit): (offset + size) wraps modulo 2^32 exactly as in the source. -/
def planOps (offset size end_block : Nat) : List SectorOp :=
  let start_block := offset / 512
  let pm := offset % 512
  let preOps : List SectorOp :=
    if pm ≠ 0 then [⟨start_block, pm, 0, 512 - pm⟩] else []
  let s1 := if pm ≠ 0 then start_block + 1 else start_block
  let x := if pm ≠ 0 then 512 - pm else 0
  let qm := (offset + size) % U32 % 512
  let postOps : List SectorOp :=
    if qm ≠ 0 ∧ s1 < end_block then [⟨end_block, 0, size - qm, qm⟩] else []
  let e1 := if qm ≠ 0 ∧ s1 < end_block then end_block - 1 else end_block
  preOps ++ postOps ++ wholeOps s1 x e1

/-- The body shared verbatim by read_ata and write_ata (lines 52-103 and
105-162 compute identical sector addresses; they differ only in the transfer
direction, which applyReadPlan / applyWritePlan below supply).  Returns the
byte count the C function returns together with the sector operations it
issues.  offset0 is the koff_t argument (truncated to uint32_t), size0 the
uint32_t size argument, cap the uint64 ata_max_offset of the device. -/
def ata_plan (cap offset0 size0 : Nat) : Nat × List SectorOp :=
  let offset := offset0 % U32
  let size1 := size0 % U32
  let end_block := (offset + size1 + (U32 - 1)) % U32 / 512
  if cap < offset then (0, [])
  else
    let size := if cap < (offset + size1) % U32 then (cap - offset) % U32 else size1
    (size, planOps offset size end_block)

/-- read_ata on a device with the given identity. -/
def read_ata (id : AtaIdentity) (offset size : Nat) : Nat × List SectorOp :=
  ata_plan (ata_max_offset id) offset size

/-- write_ata on a device with the given identity (same planner as read_ata;
the direction of each operation is supplied by the apply functions). -/
def write_ata (id : AtaIdentity) (offset size : Nat) : Nat × List SectorOp :=
  ata_plan (ata_max_offset id) offset size

/-- Total bytes moved between the caller's buffer and the disk by a plan. -/
def planBytes (ops : List SectorOp) : Nat :=
  (ops.map (fun op => op.len)).sum

/-- Disk effect of one write-direction operation: bytes
[sector*512 + sectorOff, .. + len) of the disk take the values of buffer bytes
[bufOff, bufOff + len).  This is the net effect of both the whole-sector
write and the prefix/postfix read-modify-write. -/
def applyWriteOp (buf : Nat → Nat) (disk : Nat → Nat) (op : SectorOp) : Nat → Nat :=
  fun d =>
    if op.sector * 512 + op.sectorOff ≤ d ∧ d < op.sector * 512 + op.sectorOff + op.len
    then buf (op.bufOff + (d - (op.sector * 512 + op.sectorOff)))
    else disk d

/-- Disk contents after write_ata applies its operations in order. -/
def applyWritePlan (buf : Nat → Nat) (ops : List SectorOp) (disk : Nat → Nat) : Nat → Nat :=
  ops.foldl (fun dk op => applyWriteOp buf dk op) disk

/-- Caller-buffer effect of one read-direction operation. -/
def applyReadOp (disk : Nat → Nat) (out : Nat → Nat) (op : SectorOp) : Nat → Nat :=
  fun j =>
    if op.bufOff ≤ j ∧ j < op.bufOff + op.len
    then disk (op.sector * 512 + op.sectorOff + (j - op.bufOff))
    else out j

/-- Caller buffer after read_ata applies its operations in order. -/
def applyReadPlan (disk : Nat → Nat) (ops : List SectorOp) (out : Nat → Nat) : Nat → Nat :=
  ops.foldl (fun o op => applyReadOp disk o op) out

/-- One whole sector written to the byte-addressed disk. -/
def diskWriteSector (disk : Nat → Nat) (lba : Nat) (b : Nat → Nat) : Nat → Nat :=
  fun d => if lba * 512 ≤ d ∧ d < lba * 512 + 512 then b (d - lba * 512) else disk d

/-- The byte stream ata_device_read_sector returns for a sector. -/
def diskReadSector (disk : Nat → Nat) (lba : Nat) : Nat → Nat :=
  fun k => disk (lba * 512 + k)

/-- The 32-bit word at word index i of a byte buffer (little endian), as
dereferenced by buffer_compare through its uint32_t pointers. -/
def word32 (b : Nat → Nat) (i : Nat) : Nat :=
  b (4 * i) + 256 * b (4 * i + 1) + 65536 * b (4 * i + 2) + 16777216 * b (4 * i + 3)

/-- The comparison loop of buffer_compare: word index i, n words remaining;
returns 1 at the first mismatching word, else 0. -/
def bcLoop (w1 w2 : Nat → Nat) : Nat → Nat → Nat
  | _, 0 => 0
  | i, n + 1 => if w1 i = w2 i then bcLoop w1 w2 (i + 1) n else 1

/-- buffer_compare: asserts that size is a multiple of 4 (none models the
assert(!(size % 4)) abort), then compares size/4 words. -/
def buffer_compare (b1 b2 : Nat → Nat) (size : Nat) : Option Nat :=
  if size % 4 = 0 then some (bcLoop (word32 b1) (word32 b2) 0 (size / 4)) else none

/-- The ports the driver touches: offsets from dev.io_base, and the separate
dev.control port.  Per the register map, DATA = io 0, FEATURES = io 1,
SECCOUNT0 = io 2, LBA0..LBA2 = io 3..5, HDDEVSEL = io 6, COMMAND = STATUS =
io 7, and ALTSTATUS / device control = io 12 (the header's extended register
index ATA_REG_ALTSTATUS = ATA_REG_CONTROL = 0x0C). -/
inductive Port where
  | io (off : Nat)
  | ctrl
deriving Repr, DecidableEq

/-- Observable driver actions: spinlock acquire/release and port accesses.
insw / outsw are block 16-bit transfers of the given word count (the identify
word loop of ata_device_init is folded into one insw of 256 words); inb
events standing for a BSY poll represent one or more status reads. -/
inductive Event where
  | lock
  | unlock
  | outb (p : Port) (v : Nat)
  | inb (p : Port)
  | insw (p : Port) (words : Nat)
  | outsw (p : Port) (words : Nat)
deriving Repr, DecidableEq

/-- ata_io_wait: four reads of the alternate status register. -/
def ata_io_wait_tr : List Event :=
  [.inb (.io 12), .inb (.io 12), .inb (.io 12), .inb (.io 12)]

/-- ata_status_wait: the BSY poll of the status register. -/
def ata_status_wait_tr : List Event := [.inb (.io 7)]

/-- ata_wait: the 400ns stall, the BSY poll, and (advanced) one more status
read whose ERR/DF/DRQ decode yields the return value. -/
def ata_wait_tr (advanced : Bool) : List Event :=
  ata_io_wait_tr ++ ata_status_wait_tr ++ if advanced then [.inb (.io 7)] else []

/-- ata_soft_reset: 0x04 then 0x00 to the device control port, with a stall. -/
def ata_soft_reset_tr : List Event :=
  [.outb .ctrl 4] ++ ata_io_wait_tr ++ [.outb .ctrl 0]

/-- One attempt of the try_again body of ata_device_read_sector: control,
wait, drive select, features, count, LBA bytes, READ PIO (0x20) command,
advanced wait. -/
def readAttempt (slave lba : Nat) : List Event :=
  [.outb (.io 12) 2] ++ ata_wait_tr false ++
  [.outb (.io 6) (0xe0 ||| slave <<< 4 ||| (lba &&& 0x0f000000) >>> 24),
   .outb (.io 1) 0,
   .outb (.io 2) 1,
   .outb (.io 3) (lba &&& 0x000000ff),
   .outb (.io 4) ((lba &&& 0x0000ff00) >>> 8),
   .outb (.io 5) ((lba &&& 0x00ff0000) >>> 16),
   .outb (.io 7) 0x20] ++ ata_wait_tr true

/-- The success tail of ata_device_read_sector: 256 data words in, a final
wait, and the unlock. -/
def readSuccessTail : List Event :=
  [.insw (.io 0) 256] ++ ata_wait_tr false ++ [.unlock]

/-- The retry loop of ata_device_read_sector.  fails lists the outcomes of
the successive ata_wait(dev, 1) calls (true = ERR, DF or missing DRQ); an
exhausted list means every further attempt succeeds.  errors is the C error
counter; the code bails out, unlocking, when it exceeds 4.  Returns the event
trace after the initial lock together with true iff data was transferred. -/
def readSectorLoop (slave lba : Nat) : List Bool → Nat → List Event × Bool
  | [], _ => (readAttempt slave lba ++ readSuccessTail, true)
  | false :: _, _ => (readAttempt slave lba ++ readSuccessTail, true)
  | true :: rest, errors =>
    if 4 < errors + 1 then (readAttempt slave lba ++ [Event.unlock], false)
    else
      let r := readSectorLoop slave lba rest (errors + 1)
      (readAttempt slave lba ++ r.1, r.2)

/-- Full trace and outcome of ata_device_read_sector. -/
def ata_device_read_sector_tr (slave lba : Nat) (fails : List Bool) : List Event × Bool :=
  let r := readSectorLoop slave lba fails 0
  (Event.lock :: r.1, r.2)

/-- Caller buffer after ata_device_read_sector: on success the first 512
bytes receive the sector, on the bail-out path the buffer is untouched. -/
def ata_device_read_sector_buf (disk : Nat → Nat) (slave lba : Nat)
    (fails : List Bool) (buf : Nat → Nat) : Nat → Nat :=
  if (readSectorLoop slave lba fails 0).2 then
    fun k => if k < 512 then diskReadSector disk lba k else buf k
  else buf

/-- Trace of ata_device_write_sector: lock, control, waits, drive select,
registers, WRITE PIO (0x30), 256 data words out, CACHE FLUSH (0xE7), wait,
unlock. -/
def ata_device_write_sector_tr (slave lba : Nat) : List Event :=
  [Event.lock, .outb (.io 12) 2] ++ ata_wait_tr false ++
  [.outb (.io 6) (0xe0 ||| slave <<< 4 ||| (lba &&& 0x0f000000) >>> 24)] ++
  ata_wait_tr false ++
  [.outb (.io 1) 0,
   .outb (.io 2) 1,
   .outb (.io 3) (lba &&& 0x000000ff),
   .outb (.io 4) ((lba &&& 0x0000ff00) >>> 8),
   .outb (.io 5) ((lba &&& 0x00ff0000) >>> 16),
   .outb (.io 7) 0x30] ++ ata_wait_tr false ++
  [.outsw (.io 0) 256, .outb (.io 7) 0xE7] ++ ata_wait_tr false ++ [.unlock]

/-- Trace of ata_device_init: straight-line port accesses with no lock:
two setup writes, drive select, stall, IDENTIFY (0xEC), stall, status read,
wait, 256 identify words, final control write. -/
def ata_device_init_tr (slave : Nat) : List Event :=
  [.outb (.io 1) 1, .outb .ctrl 0, .outb (.io 6) (0xA0 ||| slave <<< 4)] ++
  ata_io_wait_tr ++ [.outb (.io 7) 0xEC] ++ ata_io_wait_tr ++
  [.inb (.io 7)] ++ ata_wait_tr false ++ [.insw (.io 0) 256] ++
  [.outb (.io 12) 2]

/-- Trace of ata_device_detect for signature bytes (cl, ch): soft reset,
stall, drive select, stall, capped BSY poll, the two signature reads, and,
for the PATA/SATA signature only, the node creation path runs
ata_device_init.  No lock anywhere. -/
def ata_device_detect_tr (slave cl ch : Nat) : List Event :=
  ata_soft_reset_tr ++ ata_io_wait_tr ++
  [.outb (.io 6) (0xA0 ||| slave <<< 4)] ++ ata_io_wait_tr ++
  [.inb (.io 7)] ++ [.inb (.io 4), .inb (.io 5)] ++
  (if (cl = 0 ∧ ch = 0) ∨ (cl = 0x3C ∧ ch = 0xC3) then ata_device_init_tr slave else [])

/-- What ata_device_detect does for a drive with signature (cl, ch):
either nothing (absent drive, or the unhandled signatures behind the
TODO comment) or creation + mount of a PATA block node followed by init. -/
inductive DetectAction where
  | noDevice
  | pataNode
deriving Repr, DecidableEq

/-- The signature dispatch of ata_device_detect: 0xFF,0xFF falls into the
nothing-here return; 0x00,0x00 and 0x3C,0xC3 take the PATA branch; every
other signature (including the ATAPI signatures) reaches the trailing
TODO return 0. -/
def ata_device_detect_action (cl ch : Nat) : DetectAction :=
  if cl = 0xFF ∧ ch = 0xFF then .noDevice
  else if (cl = 0 ∧ ch = 0) ∨ (cl = 0x3C ∧ ch = 0xC3) then .pataNode
  else .noDevice

/-- Return value of ata_device_detect (1 = device found and mounted). -/
def ata_device_detect_ret (cl ch : Nat) : Nat :=
  if ata_device_detect_action cl ch = DetectAction.pataNode then 1 else 0

/-- The node attributes ata_device_create fills in. -/
structure FsNode where
  length : Nat
  mask : Nat
  uid : Nat
  gid : Nat
deriving Repr, DecidableEq

/-- ata_device_create: length = ata_max_offset(device), mask 0660, uid/gid 0
(flags = FS_BLOCKDEVICE; name, inode and the operation pointers are not part
of this model). -/
def ata_device_create (id : AtaIdentity) : FsNode :=
  { length := ata_max_offset id, mask := 0o660, uid := 0, gid := 0 }

/-- true while at least one lock is held, checked along a trace: every port
access must happen at positive lock depth. -/
def ioUnderLockAux : Nat → List Event → Bool
  | _, [] => true
  | d, Event.lock :: t => ioUnderLockAux (d + 1) t
  | d, Event.unlock :: t => ioUnderLockAux (d - 1) t
  | d, _ :: t => decide (0 < d) && ioUnderLockAux d t

/-- Every port access of the trace happens with the spinlock held. -/
def ioUnderLock (t : List Event) : Bool :=
  ioUnderLockAux 0 t

/-- The values written to the command register (io_base + 7) along a trace. -/
def commandWrites (t : List Event) : List Nat :=
  t.filterMap fun e =>
    match e with
    | Event.outb (Port.io 7) v => some v
    | _ => none

/-- Whether a trace transfers any data words inward (the read data phase). -/
def hasDataIn : List Event → Bool
  | [] => false
  | Event.insw _ _ :: _ => true
  | _ :: t => hasDataIn t

/- ------------------------------------------------------------------ -/
/- Theorems                                                            -/
/- ------------------------------------------------------------------ -/

/-- C1: the byte-range planner of read_ata / write_ata does not clamp the
prefix or the whole-sector transfers to the request size.  At the in-bounds
request offset 0, size 10 on a one-sector device the plan is a single
whole-sector operation moving 512 bytes into the caller's 10-byte buffer
while the function returns 10, so the per-operation byte counts sum to 512,
not to size. -/
theorem C1_small_request_overrun :
    (read_ata ⟨1, 0⟩ 0 10).1 = 10 ∧
    (read_ata ⟨1, 0⟩ 0 10).2 = [⟨0, 0, 0, 512⟩] ∧
    planBytes (read_ata ⟨1, 0⟩ 0 10).2 = 512 ∧
    planBytes (read_ata ⟨1, 0⟩ 0 10).2 ≠ (read_ata ⟨1, 0⟩ 0 10).1 := by
  refine ⟨rfl, rfl, rfl, by decide⟩

/-- C2 counterexample: at offset equal to the capacity (512, device of one
sector) with size 1024, read_ata returns 0 as claimed but still issues two
whole-sector reads (end_block is computed from the unclamped size before the
clamp zeroes it), so port I/O is performed. -/
theorem C2_counterexample :
    (read_ata ⟨1, 0⟩ 512 1024).1 = 0 ∧ (read_ata ⟨1, 0⟩ 512 1024).2 ≠ [] := by
  refine ⟨rfl, by decide⟩

/-- C2 amended: for every offset strictly greater than the capacity and
below 2^32 (so that the uint32 truncation of the koff_t argument is the
identity), read_ata and write_ata return 0 and issue no sector operation,
hence no port I/O. -/
theorem C2_oob_amended (id : AtaIdentity) (offset size : Nat)
    (h1 : ata_max_offset id < offset) (h2 : offset < U32) :
    read_ata id offset size = (0, []) ∧ write_ata id offset size = (0, []) := by
  have ho : offset % U32 = offset := Nat.mod_eq_of_lt h2
  constructor <;> simp [read_ata, write_ata, ata_plan, ho, h1]

/-- C2 witness: a concrete out-of-range request. -/
theorem C2_witness :
    (ata_max_offset ⟨1, 0⟩ < 1024 ∧ 1024 < U32) ∧
    read_ata ⟨1, 0⟩ 1024 77 = (0, []) ∧ write_ata ⟨1, 0⟩ 1024 77 = (0, []) :=
  ⟨⟨by decide, by decide⟩, C2_oob_amended ⟨1, 0⟩ 1024 77 (by decide) (by decide)⟩

/-- C4 counterexample: the ATAPI signatures reach the trailing TODO return
of ata_device_detect: no node of any kind is created and the function
returns 0, contradicting the claimed /dev/cdrom creation, mount and
capacity probe. -/
theorem C4_counterexample :
    ata_device_detect_action 0x14 0xEB = DetectAction.noDevice ∧
    ata_device_detect_action 0x69 0x96 = DetectAction.noDevice ∧
    ata_device_detect_ret 0x14 0xEB = 0 ∧ ata_device_detect_ret 0x69 0x96 = 0 := by
  decide

/-- C4 amended: the signature dispatch of ata_device_detect creates a PATA
node exactly for 0x00,0x00 and 0x3C,0xC3; 0xFF,0xFF is treated as absent;
the ATAPI signatures 0x14,0xEB and 0x69,0x96 are skipped (TODO in the
source), creating nothing. -/
theorem C4_signature_amended :
    (∀ cl ch, ata_device_detect_action cl ch = DetectAction.pataNode ↔
      ((cl = 0 ∧ ch = 0) ∨ (cl = 0x3C ∧ ch = 0xC3))) ∧
    ata_device_detect_action 0xFF 0xFF = DetectAction.noDevice ∧
    ata_device_detect_action 0x14 0xEB = DetectAction.noDevice ∧
    ata_device_detect_action 0x69 0x96 = DetectAction.noDevice := by
  refine ⟨fun cl ch => ?_, by decide, by decide, by decide⟩
  unfold ata_device_detect_action
  split_ifs with hff hsig
  · simp only [reduceCtorEq, false_iff]
    omega
  · simp [hsig]
  · simp only [reduceCtorEq, false_iff]
    exact hsig

/-- C6 counterexample: the claim's own example with capacity 1024: a read at
offset 924, size 1000 returns the clamped 100 bytes, but the transfer is not
clamped: because end_block was computed from the unclamped size, the plan
moves 1124 bytes (sectors 2 and 3, beyond the device, are read whole into
the caller's buffer). -/
theorem C6_counterexample :
    (read_ata ⟨2, 0⟩ 924 1000).1 = 100 ∧
    planBytes (read_ata ⟨2, 0⟩ 924 1000).2 = 1124 ∧
    planBytes (read_ata ⟨2, 0⟩ 924 1000).2 ≠ (read_ata ⟨2, 0⟩ 924 1000).1 := by
  refine ⟨rfl, rfl, by decide⟩

/-- C6 amended: when offset < capacity < offset + size and offset + size
stays below 2^32 (so the unsigned comparison in the clamp sees the true
sum), read_ata and write_ata return exactly capacity - offset bytes; the
sector operations themselves are not clamped. -/
theorem C6_truncation_amended (id : AtaIdentity) (offset size : Nat)
    (h1 : offset < ata_max_offset id) (h2 : ata_max_offset id < offset + size)
    (h3 : offset + size < U32) :
    (read_ata id offset size).1 = ata_max_offset id - offset ∧
    (write_ata id offset size).1 = ata_max_offset id - offset := by
  have ho : offset % U32 = offset := Nat.mod_eq_of_lt (by omega)
  have hs : size % U32 = size := Nat.mod_eq_of_lt (by omega)
  have hos : (offset + size) % U32 = offset + size := Nat.mod_eq_of_lt h3
  have hco : (ata_max_offset id - offset) % U32 = ata_max_offset id - offset :=
    Nat.mod_eq_of_lt (by omega)
  have hno : ¬ ata_max_offset id < offset := by omega
  constructor <;> simp [read_ata, write_ata, ata_plan, ho, hs, hos, hco, hno, h2]

/-- C6 witness: the claim's example, capacity 1024, offset 924, size 1000. -/
theorem C6_witness :
    (924 < ata_max_offset ⟨2, 0⟩ ∧ ata_max_offset ⟨2, 0⟩ < 924 + 1000 ∧
      924 + 1000 < U32) ∧
    (read_ata ⟨2, 0⟩ 924 1000).1 = ata_max_offset ⟨2, 0⟩ - 924 ∧
    (write_ata ⟨2, 0⟩ 924 1000).1 = ata_max_offset ⟨2, 0⟩ - 924 :=
  ⟨⟨by decide, by decide, by decide⟩,
   C6_truncation_amended ⟨2, 0⟩ 924 1000 (by decide) (by decide) (by decide)⟩

/-- C7: the capacity is 512 * sectors_48 when sectors_48 is nonzero and
512 * sectors_28 otherwise; it is published as the node length by
ata_device_create and is the bound read_ata clamps against. -/
theorem C7_capacity (id : AtaIdentity) :
    ata_max_offset id = 512 * (if id.sectors_48 ≠ 0 then id.sectors_48 else id.sectors_28) ∧
    (ata_device_create id).length = ata_max_offset id ∧
    (∀ offset size, read_ata id offset size = ata_plan (ata_max_offset id) offset size) := by
  refine ⟨?_, rfl, fun _ _ => rfl⟩
  by_cases h : id.sectors_48 = 0 <;> simp [ata_max_offset, h, Nat.mul_comm]

/-- Stepping the lock-depth check over one retry attempt at depth 1 leaves
the remaining trace to check: every event of readAttempt is a port access
performed at positive depth. -/
theorem ioUnderLockAux_readAttempt (slave lba : Nat) (t : List Event) :
    ioUnderLockAux 1 (readAttempt slave lba ++ t) = ioUnderLockAux 1 t := rfl

/-- Every event of the retry loop of ata_device_read_sector happens at
positive lock depth (the trace starts just after the spin_lock). -/
theorem readLoop_locked (slave lba : Nat) :
    ∀ (fails : List Bool) (errors : Nat),
      ioUnderLockAux 1 (readSectorLoop slave lba fails errors).1 = true := by
  intro fails
  induction fails with
  | nil => intro errors; rfl
  | cons f rest ih =>
    intro errors
    cases f with
    | false => rfl
    | true =>
      by_cases h : 4 < errors + 1
      · have e : readSectorLoop slave lba (true :: rest) errors =
            (readAttempt slave lba ++ [Event.unlock], false) := by
          simp [readSectorLoop, h]
        rw [e]
        rfl
      · have e : (readSectorLoop slave lba (true :: rest) errors).1 =
            readAttempt slave lba ++ (readSectorLoop slave lba rest (errors + 1)).1 := by
          simp [readSectorLoop, h]
        rw [e, ioUnderLockAux_readAttempt]
        exact ih (errors + 1)

/-- readAttempt contains no lock or unlock event. -/
theorem readAttempt_count_lock (slave lba : Nat) :
    (readAttempt slave lba).count Event.lock = 0 := rfl

/-- readAttempt contains no unlock event. -/
theorem readAttempt_count_unlock (slave lba : Nat) :
    (readAttempt slave lba).count Event.unlock = 0 := rfl

/-- The retry loop acquires no further lock and releases exactly once, on
both the success tail and the bail-out path. -/
theorem readLoop_count (slave lba : Nat) :
    ∀ (fails : List Bool) (errors : Nat),
      (readSectorLoop slave lba fails errors).1.count Event.lock = 0 ∧
      (readSectorLoop slave lba fails errors).1.count Event.unlock = 1 := by
  intro fails
  induction fails with
  | nil => intro errors; exact ⟨rfl, rfl⟩
  | cons f rest ih =>
    intro errors
    cases f with
    | false => exact ⟨rfl, rfl⟩
    | true =>
      by_cases h : 4 < errors + 1
      · have e : readSectorLoop slave lba (true :: rest) errors =
            (readAttempt slave lba ++ [Event.unlock], false) := by
          simp [readSectorLoop, h]
        rw [e]
        exact ⟨rfl, rfl⟩
      · have e : (readSectorLoop slave lba (true :: rest) errors).1 =
            readAttempt slave lba ++ (readSectorLoop slave lba rest (errors + 1)).1 := by
          simp [readSectorLoop, h]
        rw [e]
        constructor
        · rw [List.count_append, readAttempt_count_lock, (ih (errors + 1)).1]
        · rw [List.count_append, readAttempt_count_unlock, (ih (errors + 1)).2]

/-- C5 counterexample: a successful first-attempt single-sector read issues
no write of READ DMA (0xC8) to the command register at all: the only command
written is READ PIO (0x20). -/
theorem C5_counterexample :
    (ata_device_read_sector_tr 0 0 []).2 = true ∧
    (commandWrites (ata_device_read_sector_tr 0 0 []).1).count 0xC8 = 0 ∧
    (commandWrites (ata_device_read_sector_tr 0 0 []).1).count 0xC8 ≠ 1 := by
  refine ⟨rfl, rfl, by decide⟩

/-- C5 amended: a single-sector read whose first attempt succeeds performs
exactly one command-register write, READ PIO (0x20); and a read of
(offset 0, size 512) on a device of at least one sector returns 512 bytes
as a single whole-sector operation on sector 0. -/
theorem C5_read_command_amended (slave lba : Nat) (id : AtaIdentity)
    (h : 512 ≤ ata_max_offset id) :
    commandWrites (ata_device_read_sector_tr slave lba []).1 = [0x20] ∧
    (ata_device_read_sector_tr slave lba []).2 = true ∧
    read_ata id 0 512 = (512, [⟨0, 0, 0, 512⟩]) := by
  refine ⟨rfl, rfl, ?_⟩
  have hno : ¬ ata_max_offset id < 512 := Nat.not_lt.mpr h
  simp [read_ata, ata_plan, planOps, wholeOps, U32, hno, List.range_succ]

/-- C5 witness: drive 0, LBA 5, one-sector device. -/
theorem C5_witness :
    512 ≤ ata_max_offset ⟨1, 0⟩ ∧
    commandWrites (ata_device_read_sector_tr 0 5 []).1 = [0x20] ∧
    (ata_device_read_sector_tr 0 5 []).2 = true ∧
    read_ata ⟨1, 0⟩ 0 512 = (512, [⟨0, 0, 0, 512⟩]) :=
  ⟨by decide, C5_read_command_amended 0 5 ⟨1, 0⟩ (by decide)⟩

/-- C8 counterexample: ata_device_detect on a PATA-signature drive (which
also runs ata_device_init) performs its port I/O with the lock depth at 0:
probe and initialization never acquire ata_lock. -/
theorem C8_counterexample :
    ioUnderLock (ata_device_detect_tr 0 0 0) = false := by decide

/-- C8 amended: the sector transport does obey the lock discipline: every
port access of ata_device_read_sector (for every retry outcome) and of
ata_device_write_sector happens between the spin_lock and the spin_unlock;
but probe and initialization (ata_device_detect, ata_device_init and the
soft reset inside them) perform all their port I/O without the lock. -/
theorem C8_lock_discipline_amended :
    (∀ slave lba fails,
        ioUnderLock (ata_device_read_sector_tr slave lba fails).1 = true) ∧
    (∀ slave lba, ioUnderLock (ata_device_write_sector_tr slave lba) = true) ∧
    ioUnderLock (ata_device_init_tr 0) = false ∧
    ioUnderLock (ata_device_detect_tr 0 0 0) = false := by
  refine ⟨fun slave lba fails => ?_, fun slave lba => rfl, by decide, by decide⟩
  exact readLoop_locked slave lba fails 0

/-- C10: ata_device_read_sector acquires and releases the lock exactly once
on every path; and when the first five ata_wait(dev, 1) decodes report an
error (ERR, DF or missing DRQ), the call bails out: no data words are
transferred in from the data port and the caller's buffer is untouched. -/
theorem C10_read_error_path (slave lba : Nat) (fails : List Bool)
    (disk buf : Nat → Nat) :
    ((ata_device_read_sector_tr slave lba fails).1.count Event.lock = 1 ∧
     (ata_device_read_sector_tr slave lba fails).1.count Event.unlock = 1) ∧
    (List.take 5 fails = [true, true, true, true, true] →
      (ata_device_read_sector_tr slave lba fails).2 = false ∧
      hasDataIn (ata_device_read_sector_tr slave lba fails).1 = false ∧
      ata_device_read_sector_buf disk slave lba fails buf = buf) := by
  constructor
  · have hc := readLoop_count slave lba fails 0
    constructor
    · show (Event.lock :: (readSectorLoop slave lba fails 0).1).count Event.lock = 1
      rw [List.count_cons]
      simp [hc.1]
    · show (Event.lock :: (readSectorLoop slave lba fails 0).1).count Event.unlock = 1
      rw [List.count_cons]
      simp [hc.2]
  · intro h
    match fails, h with
    | true :: true :: true :: true :: true :: rest, _ =>
      refine ⟨rfl, rfl, rfl⟩

/-- C10 witness: five consecutive failing waits. -/
theorem C10_witness :
    List.take 5 [true, true, true, true, true] = [true, true, true, true, true] ∧
    (ata_device_read_sector_tr 2 9 [true, true, true, true, true]).2 = false ∧
    hasDataIn (ata_device_read_sector_tr 2 9 [true, true, true, true, true]).1 = false ∧
    ata_device_read_sector_buf (fun _ => 3) 2 9 [true, true, true, true, true]
      (fun _ => 4) = fun _ => 4 :=
  ⟨by decide,
   (C10_read_error_path 2 9 [true, true, true, true, true] (fun _ => 3) (fun _ => 4)).2
     (by decide)⟩

/-- The compare loop returns 0 exactly when all n words starting at index i
agree. -/
theorem bcLoop_eq_zero_iff (w1 w2 : Nat → Nat) :
    ∀ (n i : Nat), bcLoop w1 w2 i n = 0 ↔ ∀ j < n, w1 (i + j) = w2 (i + j) := by
  intro n
  induction n with
  | zero => intro i; simp [bcLoop]
  | succ n ih =>
    intro i
    show (if w1 i = w2 i then bcLoop w1 w2 (i + 1) n else 1) = 0 ↔ _
    by_cases h : w1 i = w2 i
    · rw [if_pos h, ih (i + 1)]
      constructor
      · intro H j hj
        match j with
        | 0 => simpa using h
        | k + 1 =>
          have hk := H k (by omega)
          have e : i + (k + 1) = i + 1 + k := by omega
          rw [e]
          exact hk
      · intro H k hk
        have := H (k + 1) (by omega)
        have e : i + (k + 1) = i + 1 + k := by omega
        rwa [e] at this
    · rw [if_neg h]
      constructor
      · intro H; omega
      · intro H
        exact absurd (by simpa using H 0 (by omega)) h

/-- Two 32-bit words built from byte values below 256 agree exactly when the
four constituent bytes agree. -/
theorem word32_eq_iff (b1 b2 : Nat → Nat)
    (hb1 : ∀ i, b1 i < 256) (hb2 : ∀ i, b2 i < 256) (k : Nat) :
    word32 b1 k = word32 b2 k ↔ ∀ r < 4, b1 (4 * k + r) = b2 (4 * k + r) := by
  unfold word32
  constructor
  · intro h r hr
    have a0 := hb1 (4 * k)
    have a1 := hb1 (4 * k + 1)
    have a2 := hb1 (4 * k + 2)
    have a3 := hb1 (4 * k + 3)
    have c0 := hb2 (4 * k)
    have c1 := hb2 (4 * k + 1)
    have c2 := hb2 (4 * k + 2)
    have c3 := hb2 (4 * k + 3)
    interval_cases r
    all_goals try simp only [Nat.add_zero]
    all_goals omega
  · intro h
    have h0 := h 0 (by omega)
    have h1 := h 1 (by omega)
    have h2 := h 2 (by omega)
    have h3 := h 3 (by omega)
    simp only [Nat.add_zero] at h0
    omega

/-- C9: buffer_compare aborts exactly on sizes that are not multiples of 4;
for 4-divisible sizes it returns 0 precisely when the first size bytes of
the two buffers agree; and at the driver's only call-site size, 512, the
abort is unreachable. -/
theorem C9_buffer_compare (b1 b2 : Nat → Nat) (size : Nat)
    (hb1 : ∀ i, b1 i < 256) (hb2 : ∀ i, b2 i < 256) :
    (size % 4 ≠ 0 → buffer_compare b1 b2 size = none) ∧
    (size % 4 = 0 →
      (buffer_compare b1 b2 size = some 0 ↔ ∀ i < size, b1 i = b2 i)) ∧
    buffer_compare b1 b2 512 ≠ none := by
  refine ⟨fun h => by simp [buffer_compare, h], fun h => ?_, by simp [buffer_compare]⟩
  rw [buffer_compare, if_pos h]
  simp only [Option.some.injEq]
  rw [bcLoop_eq_zero_iff]
  constructor
  · intro H i hi
    have hk : i / 4 < size / 4 := by omega
    have hw := (word32_eq_iff b1 b2 hb1 hb2 (i / 4)).mp (by simpa using H (i / 4) hk)
    have hr := hw (i % 4) (by omega)
    have e : 4 * (i / 4) + i % 4 = i := by omega
    rwa [e] at hr
  · intro H j hj
    simp only [Nat.zero_add]
    rw [word32_eq_iff b1 b2 hb1 hb2]
    intro r hr
    exact H (4 * j + r) (by omega)

/-- C9 witness: compare of constant buffers at sizes 6, 8 and 512. -/
theorem C9_witness :
    (∀ i : Nat, (0 : Nat) < 256) ∧
    buffer_compare (fun _ => 0) (fun _ => 0) 6 = none ∧
    (buffer_compare (fun _ => 0) (fun _ => 0) 8 = some 0 ↔
      ∀ i < 8, (0 : Nat) = (0 : Nat)) ∧
    buffer_compare (fun _ => 0) (fun _ => 0) 512 ≠ none :=
  ⟨fun _ => (by decide : (0 : Nat) < 256),
   (C9_buffer_compare (fun _ => 0) (fun _ => 0) 6
      (fun _ => (by decide : (0 : Nat) < 256))
      (fun _ => (by decide : (0 : Nat) < 256))).1 (by decide),
   (C9_buffer_compare (fun _ => 0) (fun _ => 0) 8
      (fun _ => (by decide : (0 : Nat) < 256))
      (fun _ => (by decide : (0 : Nat) < 256))).2.1 (by decide),
   (C9_buffer_compare (fun _ => 0) (fun _ => 0) 512
      (fun _ => (by decide : (0 : Nat) < 256))
      (fun _ => (by decide : (0 : Nat) < 256))).2.2⟩

/-- For an in-range request (no clamp, no uint32 wrap, nonzero size) the
planner reduces to planOps with the true end sector. -/
theorem ata_plan_in_range (cap offset size : Nat) (h0 : 0 < size)
    (h1 : offset + size ≤ cap) (h2 : offset + size < U32) :
    ata_plan cap offset size = (size, planOps offset size ((offset + size - 1) / 512)) := by
  have hU : 0 < U32 := by decide
  have ho : offset % U32 = offset := Nat.mod_eq_of_lt (by omega)
  have hs : size % U32 = size := Nat.mod_eq_of_lt (by omega)
  have hos : (offset + size) % U32 = offset + size := Nat.mod_eq_of_lt h2
  have hend : (offset + size + (U32 - 1)) % U32 = offset + size - 1 := by
    have e : offset + size + (U32 - 1) = U32 + (offset + size - 1) := by omega
    rw [e, Nat.add_mod_left, Nat.mod_eq_of_lt (by omega)]
  simp only [ata_plan]
  rw [ho, hs, hos, hend]
  rw [if_neg (by omega : ¬ cap < offset), if_neg (by omega : ¬ cap < offset + size)]

/-- Every operation the planner emits for an in-range request transfers
buffer byte bufOff + k to disk byte offset + bufOff + k: the disk address of
each operation is the request offset plus its buffer cursor. -/
theorem planOps_aligned (offset size : Nat) (h2 : offset + size < U32) :
    ∀ op ∈ planOps offset size ((offset + size - 1) / 512),
      op.sector * 512 + op.sectorOff = offset + op.bufOff := by
  have hos : (offset + size) % U32 = offset + size := Nat.mod_eq_of_lt h2
  intro op hop
  simp only [planOps, hos, List.mem_append] at hop
  rcases hop with (h | h) | h
  · split at h
    · simp only [List.mem_singleton] at h
      subst h
      show offset / 512 * 512 + offset % 512 = offset + 0
      omega
    · exact absurd h (List.not_mem_nil op)
  · by_cases hc : (offset + size) % 512 ≠ 0 ∧
        (if offset % 512 ≠ 0 then offset / 512 + 1 else offset / 512) <
          (offset + size - 1) / 512
    · rw [if_pos hc] at h
      simp only [List.mem_singleton] at h
      subst h
      have hq : (offset + size) % 512 ≠ 0 := hc.1
      have hlt := hc.2
      have hd : offset / 512 ≤
          (if offset % 512 ≠ 0 then offset / 512 + 1 else offset / 512) := by
        split <;> omega
      show (offset + size - 1) / 512 * 512 + 0 = offset + (size - (offset + size) % 512)
      omega
    · rw [if_neg hc] at h
      exact absurd h (List.not_mem_nil op)
  · rw [wholeOps] at h
    rcases List.mem_map.mp h with ⟨i, hi, rfl⟩
    have hi2 := List.mem_range.mp hi
    by_cases hpm : offset % 512 = 0 <;> simp [hpm] <;> omega

/-- Any buffer index j in [x, x + 512 * count) is covered by one of the
whole-sector operations. -/
theorem wholeOps_cover (s1 x e1 j : Nat) (hx : x ≤ j)
    (hj : j < x + 512 * (e1 + 1 - s1)) :
    ∃ op ∈ wholeOps s1 x e1, op.bufOff ≤ j ∧ j < op.bufOff + op.len := by
  refine ⟨⟨s1 + (j - x) / 512, 0, x + 512 * ((j - x) / 512), 512⟩, ?_, ?_, ?_⟩
  · exact List.mem_map.mpr ⟨(j - x) / 512, List.mem_range.mpr (by omega), rfl⟩
  · show x + 512 * ((j - x) / 512) ≤ j
    omega
  · show j < x + 512 * ((j - x) / 512) + 512
    omega

/-- Coverage: for an in-range request every requested byte index j < size is
covered by at least one emitted operation (possibly together with overrun
bytes beyond size, which the planner also moves). -/
theorem planOps_cover (offset size : Nat) (h2 : offset + size < U32) :
    ∀ j, j < size → ∃ op ∈ planOps offset size ((offset + size - 1) / 512),
      op.bufOff ≤ j ∧ j < op.bufOff + op.len := by
  have hos : (offset + size) % U32 = offset + size := Nat.mod_eq_of_lt h2
  intro j hj
  simp only [planOps, hos]
  by_cases hpm : offset % 512 = 0
  · have hs1 : (if offset % 512 ≠ 0 then offset / 512 + 1 else offset / 512) =
        offset / 512 := if_neg (by omega)
    have hx : (if offset % 512 ≠ 0 then 512 - offset % 512 else 0) = 0 :=
      if_neg (by omega)
    rw [hs1, hx]
    by_cases hq : (offset + size) % 512 = 0
    · have he1 : (if (offset + size) % 512 ≠ 0 ∧ offset / 512 < (offset + size - 1) / 512
          then (offset + size - 1) / 512 - 1 else (offset + size - 1) / 512) =
          (offset + size - 1) / 512 := if_neg (by omega)
      rw [he1]
      rcases wholeOps_cover (offset / 512) 0 ((offset + size - 1) / 512) j
          (by omega) (by omega) with ⟨op, hmem, hb1, hb2⟩
      exact ⟨op, List.mem_append.mpr (Or.inr hmem), hb1, hb2⟩
    · by_cases hlt : offset / 512 < (offset + size - 1) / 512
      · have he1 : (if (offset + size) % 512 ≠ 0 ∧ offset / 512 < (offset + size - 1) / 512
            then (offset + size - 1) / 512 - 1 else (offset + size - 1) / 512) =
            (offset + size - 1) / 512 - 1 := if_pos ⟨hq, hlt⟩
        rw [he1]
        by_cases hpost : size - (offset + size) % 512 ≤ j
        · refine ⟨⟨(offset + size - 1) / 512, 0, size - (offset + size) % 512,
              (offset + size) % 512⟩, ?_, hpost, ?_⟩
          · refine List.mem_append.mpr (Or.inl (List.mem_append.mpr (Or.inr ?_)))
            rw [if_pos ⟨hq, hlt⟩]
            exact List.mem_singleton.mpr rfl
          · show j < size - (offset + size) % 512 + (offset + size) % 512
            omega
        · rcases wholeOps_cover (offset / 512) 0 ((offset + size - 1) / 512 - 1) j
              (by omega) (by omega) with ⟨op, hmem, hb1, hb2⟩
          exact ⟨op, List.mem_append.mpr (Or.inr hmem), hb1, hb2⟩
      · have he1 : (if (offset + size) % 512 ≠ 0 ∧ offset / 512 < (offset + size - 1) / 512
            then (offset + size - 1) / 512 - 1 else (offset + size - 1) / 512) =
            (offset + size - 1) / 512 := if_neg (by omega)
        rw [he1]
        rcases wholeOps_cover (offset / 512) 0 ((offset + size - 1) / 512) j
            (by omega) (by omega) with ⟨op, hmem, hb1, hb2⟩
        exact ⟨op, List.mem_append.mpr (Or.inr hmem), hb1, hb2⟩
  · have hs1 : (if offset % 512 ≠ 0 then offset / 512 + 1 else offset / 512) =
        offset / 512 + 1 := if_pos (by omega)
    have hx : (if offset % 512 ≠ 0 then 512 - offset % 512 else 0) =
        512 - offset % 512 := if_pos (by omega)
    rw [hs1, hx]
    by_cases hjp : j < 512 - offset % 512
    · refine ⟨⟨offset / 512, offset % 512, 0, 512 - offset % 512⟩, ?_, Nat.zero_le j, ?_⟩
      · refine List.mem_append.mpr (Or.inl (List.mem_append.mpr (Or.inl ?_)))
        rw [if_pos (by omega : offset % 512 ≠ 0)]
        exact List.mem_singleton.mpr rfl
      · show j < 0 + (512 - offset % 512)
        omega
    · by_cases hq : (offset + size) % 512 = 0
      · have he1 : (if (offset + size) % 512 ≠ 0 ∧
            offset / 512 + 1 < (offset + size - 1) / 512
            then (offset + size - 1) / 512 - 1 else (offset + size - 1) / 512) =
            (offset + size - 1) / 512 := if_neg (by omega)
        rw [he1]
        rcases wholeOps_cover (offset / 512 + 1) (512 - offset % 512)
            ((offset + size - 1) / 512) j (by omega) (by omega) with ⟨op, hmem, hb1, hb2⟩
        exact ⟨op, List.mem_append.mpr (Or.inr hmem), hb1, hb2⟩
      · by_cases hlt : offset / 512 + 1 < (offset + size - 1) / 512
        · have he1 : (if (offset + size) % 512 ≠ 0 ∧
              offset / 512 + 1 < (offset + size - 1) / 512
              then (offset + size - 1) / 512 - 1 else (offset + size - 1) / 512) =
              (offset + size - 1) / 512 - 1 := if_pos ⟨hq, hlt⟩
          rw [he1]
          by_cases hpost : size - (offset + size) % 512 ≤ j
          · refine ⟨⟨(offset + size - 1) / 512, 0, size - (offset + size) % 512,
                (offset + size) % 512⟩, ?_, hpost, ?_⟩
            · refine List.mem_append.mpr (Or.inl (List.mem_append.mpr (Or.inr ?_)))
              rw [if_pos ⟨hq, hlt⟩]
              exact List.mem_singleton.mpr rfl
            · show j < size - (offset + size) % 512 + (offset + size) % 512
              omega
          · rcases wholeOps_cover (offset / 512 + 1) (512 - offset % 512)
                ((offset + size - 1) / 512 - 1) j (by omega) (by omega) with
              ⟨op, hmem, hb1, hb2⟩
            exact ⟨op, List.mem_append.mpr (Or.inr hmem), hb1, hb2⟩
        · have he1 : (if (offset + size) % 512 ≠ 0 ∧
              offset / 512 + 1 < (offset + size - 1) / 512
              then (offset + size - 1) / 512 - 1 else (offset + size - 1) / 512) =
              (offset + size - 1) / 512 := if_neg (by omega)
          rw [he1]
          rcases wholeOps_cover (offset / 512 + 1) (512 - offset % 512)
              ((offset + size - 1) / 512) j (by omega) (by omega) with ⟨op, hmem, hb1, hb2⟩
          exact ⟨op, List.mem_append.mpr (Or.inr hmem), hb1, hb2⟩

/-- A write plan leaves disk byte offset + j untouched when no operation
covers buffer index j (all operations aligned to the request offset). -/
theorem applyWritePlan_nc (buf : Nat → Nat) (offset j : Nat) :
    ∀ (ops : List SectorOp) (disk : Nat → Nat),
      (∀ op ∈ ops, op.sector * 512 + op.sectorOff = offset + op.bufOff) →
      (∀ op ∈ ops, ¬ (op.bufOff ≤ j ∧ j < op.bufOff + op.len)) →
      applyWritePlan buf ops disk (offset + j) = disk (offset + j) := by
  intro ops
  induction ops with
  | nil => intro disk _ _; rfl
  | cons op ops ih =>
    intro disk ha hn
    have step : applyWritePlan buf (op :: ops) disk =
        applyWritePlan buf ops (applyWriteOp buf disk op) := rfl
    rw [step, ih (applyWriteOp buf disk op)
        (fun o ho => ha o (List.mem_cons_of_mem _ ho))
        (fun o ho => hn o (List.mem_cons_of_mem _ ho))]
    show (if op.sector * 512 + op.sectorOff ≤ offset + j ∧
        offset + j < op.sector * 512 + op.sectorOff + op.len then _ else disk (offset + j)) =
      disk (offset + j)
    rw [if_neg]
    rw [ha op (List.mem_cons_self op ops)]
    intro hcond
    exact hn op (List.mem_cons_self op ops) ⟨by omega, by omega⟩

/-- A write plan whose operations are aligned to the request offset stores
buf j at disk byte offset + j whenever some operation covers j. -/
theorem applyWritePlan_cov (buf : Nat → Nat) (offset j : Nat) :
    ∀ (ops : List SectorOp) (disk : Nat → Nat),
      (∀ op ∈ ops, op.sector * 512 + op.sectorOff = offset + op.bufOff) →
      (∃ op ∈ ops, op.bufOff ≤ j ∧ j < op.bufOff + op.len) →
      applyWritePlan buf ops disk (offset + j) = buf j := by
  intro ops
  induction ops with
  | nil =>
    intro disk _ h
    rcases h with ⟨op, hop, _⟩
    exact absurd hop (List.not_mem_nil op)
  | cons op ops ih =>
    intro disk ha hex
    by_cases hc : ∃ o ∈ ops, o.bufOff ≤ j ∧ j < o.bufOff + o.len
    · exact ih (applyWriteOp buf disk op)
        (fun o ho => ha o (List.mem_cons_of_mem _ ho)) hc
    · have hop : op.bufOff ≤ j ∧ j < op.bufOff + op.len := by
        rcases hex with ⟨o, ho, hcov⟩
        rcases List.mem_cons.mp ho with rfl | ho2
        · exact hcov
        · exact absurd ⟨o, ho2, hcov⟩ hc
      have hnc : ∀ o ∈ ops, ¬ (o.bufOff ≤ j ∧ j < o.bufOff + o.len) :=
        fun o ho hcov => hc ⟨o, ho, hcov⟩
      have step : applyWritePlan buf (op :: ops) disk (offset + j) =
          applyWritePlan buf ops (applyWriteOp buf disk op) (offset + j) := rfl
      rw [step, applyWritePlan_nc buf offset j ops (applyWriteOp buf disk op)
          (fun o ho => ha o (List.mem_cons_of_mem _ ho)) hnc]
      have hao := ha op (List.mem_cons_self op ops)
      show (if op.sector * 512 + op.sectorOff ≤ offset + j ∧
          offset + j < op.sector * 512 + op.sectorOff + op.len
          then buf (op.bufOff + (offset + j - (op.sector * 512 + op.sectorOff)))
          else disk (offset + j)) = buf j
      rw [hao, if_pos ⟨by omega, by omega⟩]
      congr 1
      omega

/-- A read plan leaves buffer index j untouched when no operation covers it. -/
theorem applyReadPlan_nc (disk : Nat → Nat) (j : Nat) :
    ∀ (ops : List SectorOp) (out : Nat → Nat),
      (∀ op ∈ ops, ¬ (op.bufOff ≤ j ∧ j < op.bufOff + op.len)) →
      applyReadPlan disk ops out j = out j := by
  intro ops
  induction ops with
  | nil => intro out _; rfl
  | cons op ops ih =>
    intro out hn
    have step : applyReadPlan disk (op :: ops) out =
        applyReadPlan disk ops (applyReadOp disk out op) := rfl
    rw [step, ih (applyReadOp disk out op)
        (fun o ho => hn o (List.mem_cons_of_mem _ ho))]
    show (if op.bufOff ≤ j ∧ j < op.bufOff + op.len then _ else out j) = out j
    rw [if_neg (hn op (List.mem_cons_self op ops))]

/-- A read plan whose operations are aligned to the request offset fills
buffer index j with disk byte offset + j whenever some operation covers j. -/
theorem applyReadPlan_cov (disk : Nat → Nat) (offset j : Nat) :
    ∀ (ops : List SectorOp) (out : Nat → Nat),
      (∀ op ∈ ops, op.sector * 512 + op.sectorOff = offset + op.bufOff) →
      (∃ op ∈ ops, op.bufOff ≤ j ∧ j < op.bufOff + op.len) →
      applyReadPlan disk ops out j = disk (offset + j) := by
  intro ops
  induction ops with
  | nil =>
    intro out _ h
    rcases h with ⟨op, hop, _⟩
    exact absurd hop (List.not_mem_nil op)
  | cons op ops ih =>
    intro out ha hex
    by_cases hc : ∃ o ∈ ops, o.bufOff ≤ j ∧ j < o.bufOff + o.len
    · exact ih (applyReadOp disk out op)
        (fun o ho => ha o (List.mem_cons_of_mem _ ho)) hc
    · have hop : op.bufOff ≤ j ∧ j < op.bufOff + op.len := by
        rcases hex with ⟨o, ho, hcov⟩
        rcases List.mem_cons.mp ho with rfl | ho2
        · exact hcov
        · exact absurd ⟨o, ho2, hcov⟩ hc
      have hnc : ∀ o ∈ ops, ¬ (o.bufOff ≤ j ∧ j < o.bufOff + o.len) :=
        fun o ho hcov => hc ⟨o, ho, hcov⟩
      have step : applyReadPlan disk (op :: ops) out j =
          applyReadPlan disk ops (applyReadOp disk out op) j := rfl
      rw [step, applyReadPlan_nc disk j ops (applyReadOp disk out op) hnc]
      have hao := ha op (List.mem_cons_self op ops)
      show (if op.bufOff ≤ j ∧ j < op.bufOff + op.len
          then disk (op.sector * 512 + op.sectorOff + (j - op.bufOff))
          else out j) = disk (offset + j)
      rw [if_pos hop, hao]
      congr 1
      omega

/-- C3 amended: for every in-range request whose end stays below 2^32 (so
that the 32-bit arithmetic of the planner computes true values), writing buf
and then reading the same range returns exactly the bytes of buf on every
requested index; and on the ideal disk the write-verify readback of
ata_device_write_sector_retry is bitwise-identical to the written buffer, so
the retry loop's exit compare buffer_compare(buf, read_buf, 512) yields 0. -/
theorem C3_roundtrip_amended (id : AtaIdentity) (offset size : Nat)
    (buf disk out : Nat → Nat)
    (h1 : offset + size ≤ ata_max_offset id) (h2 : offset + size < U32) :
    (∀ j, j < size →
      applyReadPlan (applyWritePlan buf (write_ata id offset size).2 disk)
        (read_ata id offset size).2 out j = buf j) ∧
    (∀ d lba b, buffer_compare (diskReadSector (diskWriteSector d lba b) lba) b 512 =
      some 0) := by
  constructor
  · intro j hj
    have h0 : 0 < size := by omega
    have hplan := ata_plan_in_range (ata_max_offset id) offset size h0 h1 h2
    have hr : (read_ata id offset size).2 =
        planOps offset size ((offset + size - 1) / 512) := by
      rw [read_ata, hplan]
    have hw : (write_ata id offset size).2 =
        planOps offset size ((offset + size - 1) / 512) := by
      rw [write_ata, hplan]
    rw [hr, hw]
    have ha := planOps_aligned offset size h2
    have hcov := planOps_cover offset size h2 j hj
    rw [applyReadPlan_cov
        (applyWritePlan buf (planOps offset size ((offset + size - 1) / 512)) disk)
        offset j (planOps offset size ((offset + size - 1) / 512)) out ha hcov]
    exact applyWritePlan_cov buf offset j (planOps offset size ((offset + size - 1) / 512))
      disk ha hcov
  · intro d lba b
    have hr : ∀ m, m < 512 → diskReadSector (diskWriteSector d lba b) lba m = b m := by
      intro m hm
      show (if lba * 512 ≤ lba * 512 + m ∧ lba * 512 + m < lba * 512 + 512
          then b (lba * 512 + m - lba * 512) else d (lba * 512 + m)) = b m
      rw [if_pos ⟨by omega, by omega⟩]
      congr 1
      omega
    have hz : bcLoop (word32 (diskReadSector (diskWriteSector d lba b) lba)) (word32 b)
        0 (512 / 4) = 0 := by
      rw [bcLoop_eq_zero_iff]
      intro k hk
      simp only [Nat.zero_add]
      show diskReadSector (diskWriteSector d lba b) lba (4 * k) +
          256 * diskReadSector (diskWriteSector d lba b) lba (4 * k + 1) +
          65536 * diskReadSector (diskWriteSector d lba b) lba (4 * k + 2) +
          16777216 * diskReadSector (diskWriteSector d lba b) lba (4 * k + 3) =
        b (4 * k) + 256 * b (4 * k + 1) + 65536 * b (4 * k + 2) + 16777216 * b (4 * k + 3)
      rw [hr (4 * k) (by omega), hr (4 * k + 1) (by omega), hr (4 * k + 2) (by omega),
        hr (4 * k + 3) (by omega)]
    show (if 512 % 4 = 0 then
        some (bcLoop (word32 (diskReadSector (diskWriteSector d lba b) lba)) (word32 b)
          0 (512 / 4)) else none) = some 0
    rw [if_pos (by decide), hz]

/-- C3 counterexample: the in-range request offset 2^32 - 512, size 1024 on
an 8 GiB device (sectors_48 = 2^24) satisfies offset + size ≤ capacity, but
offset + size wraps to 512 in the 32-bit planner arithmetic: the plan is
empty, nothing is written or read, and reading back after writing an
all-ones buffer returns the untouched all-zero output buffer, not buf. -/
theorem C3_counterexample :
    4294966784 + 1024 ≤ ata_max_offset ⟨16777216, 0⟩ ∧
    (write_ata ⟨16777216, 0⟩ 4294966784 1024).2 = [] ∧
    applyReadPlan (applyWritePlan (fun _ => 1) (write_ata ⟨16777216, 0⟩ 4294966784 1024).2
        (fun _ => 0)) (read_ata ⟨16777216, 0⟩ 4294966784 1024).2 (fun _ => 0) 0 ≠
      (fun _ : Nat => (1 : Nat)) 0 := by
  refine ⟨by decide, rfl, ?_⟩
  rw [show (read_ata ⟨16777216, 0⟩ 4294966784 1024).2 = [] from rfl,
    show (write_ata ⟨16777216, 0⟩ 4294966784 1024).2 = [] from rfl]
  decide

/-- C3 witness: an aligned one-sector round trip on a one-sector device, and
a verify compare on sector 2. -/
theorem C3_witness :
    (0 + 512 ≤ ata_max_offset ⟨1, 0⟩ ∧ 0 + 512 < U32) ∧
    applyReadPlan (applyWritePlan (fun _ => 7) (write_ata ⟨1, 0⟩ 0 512).2 (fun _ => 0))
      (read_ata ⟨1, 0⟩ 0 512).2 (fun _ => 0) 3 = 7 ∧
    buffer_compare (diskReadSector (diskWriteSector (fun _ => 0) 2 (fun _ => 9)) 2)
      (fun _ => 9) 512 = some 0 :=
  ⟨⟨by decide, by decide⟩,
   (C3_roundtrip_amended ⟨1, 0⟩ 0 512 (fun _ => 7) (fun _ => 0) (fun _ => 0)
      (by decide) (by decide)).1 3 (by decide),
   (C3_roundtrip_amended ⟨1, 0⟩ 0 512 (fun _ => 7) (fun _ => 0) (fun _ => 0)
      (by decide) (by decide)).2 (fun _ => 0) 2 (fun _ => 9)⟩
